import Mathlib

/-!
Shallow embedding of the Massa DNS smart contract
(`src/assembly/contracts/main.ts`) and verification of its specification.

The source file contains two near-duplicate implementations of each
operation: a first one returning manually serialized result buffers
(lines 1-166) and a second one returning typed `Result` values
(lines 167-328).  Their terminal-path behaviour is identical; they differ
in the handling of delegated names in `dns_resolve` and `dns_alloc_cost`,
and both variants are embedded below where they differ.

External collaborators (the persistent key-value store, the caller
identity and transferred-coins context, the coin-transfer ledger and the
cross-contract `call` primitive) are not part of the repository; following
the specification they are modelled as an explicit association-list store,
an explicit caller/payment context, an explicit list of emitted coin
transfers, and oracle functions for forwarded sub-registry calls.  A
`Storage.get` on an absent key makes the enclosing operation fail; the
specification names this failure `NotFound`, and for the ownership checks
it states that comparing the caller against an absent owner never matches.
Result values are modelled by `Except String` (error message as in the
source) instead of the tag-byte serialization, which is a bijective
encoding of the same data.
-/

/-- The external key-value store (`Storage` in massa-as-sdk), modelled as an
association list from label to stored owner-address string. -/
structure Storage where
  entries : List (String × String)
deriving Repr, DecidableEq

namespace Storage

/-- Lookup of a key in the store; `none` models the absent-key case. -/
def get (st : Storage) (key : String) : Option String :=
  (st.entries.find? (fun p => p.1 == key)).map Prod.snd

/-- Embedding of `Storage.set`: write a value under a key, overwriting any previous one. -/
def set (st : Storage) (key value : String) : Storage :=
  ⟨(key, value) :: st.entries.filter (fun p => p.1 != key)⟩

/-- Embedding of `Storage.del`: remove the entry for a key. -/
def del (st : Storage) (key : String) : Storage :=
  ⟨st.entries.filter (fun p => p.1 != key)⟩

end Storage

/-- The execution context (`Context` in massa-as-sdk): the verified caller
identity string (`Context.caller().toString()`) and the coins transferred
with the call (`Context.transferredCoins()`, a u64 amount). -/
structure Context where
  caller : String
  transferredCoins : Nat
deriving Repr, DecidableEq

/-- The constant `ONE_UNIT = 1_000_000_000` (main.ts line 19). -/
def ONE_UNIT : Nat := 1000000000

/-- Embedding of `compute_cost` (main.ts lines 50-60): tiered price by label length.
Amounts are u64 values; all tier values are far below 2^64, so `Nat` is an
exact model. -/
def compute_cost (domain : String) : Nat :=
  if domain.length = 2 then 10000 * ONE_UNIT
  else if domain.length = 3 then 1000 * ONE_UNIT
  else if 4 ≤ domain.length ∧ domain.length ≤ 10 then 100 * ONE_UNIT
  else 1 * ONE_UNIT

/-- One character test of `is_valid_domain`'s loop body (main.ts line 68):
digit (code 48-57), lowercase letter (code 97-122) or hyphen (code 45). -/
def is_valid_char (c : Char) : Bool :=
  (48 ≤ c.toNat && c.toNat ≤ 57) || (97 ≤ c.toNat && c.toNat ≤ 122) ||
    (c.toNat == 45)

/-- Embedding of `is_valid_domain` (main.ts lines 62-73): length at least 2 and every
character passes `is_valid_char`. -/
def is_valid_domain (domain : String) : Bool :=
  if domain.length < 2 then false
  else domain.data.all (fun c => is_valid_char c)

/-- Helper for `split_domain`: split a character list at its LAST `'.'`,
returning the parts before and after it, or `none` when no dot occurs.
This models `domain.lastIndexOf(".")` together with the two slices. -/
def splitCharsAtLastDot : List Char → Option (List Char × List Char)
  | [] => none
  | c :: cs =>
    match splitCharsAtLastDot cs with
    | some (pre, post) => some (c :: pre, post)
    | none => if c = '.' then some ([], cs) else none

/-- Embedding of `split_domain` (main.ts lines 75-85): returns `(remainder, label)` where
`label` is the substring after the last dot (the whole string when no dot is
present) and `remainder` is everything before that dot (empty when no dot is
present). -/
def split_domain (domain : String) : String × String :=
  match splitCharsAtLastDot domain.data with
  | none => ("", domain)
  | some (pre, post) => (String.mk pre, String.mk post)

/-- Embedding of `dns_resolve` (main.ts lines 36-48, serialized-buffer variant).
`callResolve target remainder` is the oracle for the forwarded
`call(new Address(target), "dns_resolve", remainder, ...)`; its answer is
returned unchanged.  An absent key under `Storage.get` fails the operation;
per the specification this failure is `NotFound`. -/
def dns_resolve (st : Storage)
    (callResolve : String → String → Except String String)
    (full_domain : String) : Except String String :=
  let domain_array := split_domain full_domain
  if domain_array.1 != "" then
    match Storage.get st domain_array.2 with
    | none => Except.error "NotFound"
    | some address => callResolve address domain_array.1
  else
    match Storage.get st domain_array.2 with
    | none => Except.error "NotFound"
    | some owner => Except.ok owner

/-- An as-types `Result<Amount>` value: an amount together with an optional
error message (`isOk` iff the error is absent). -/
structure AmountResult where
  value : Nat
  error : Option String
deriving Repr, DecidableEq

/-- Embedding of `dns_alloc_cost` (main.ts lines 243-263, typed-`Result` variant): the
delegated branch's forwarded call is commented out in the source, so the
cost is always computed from the local label; the result is
`Amount(0)` alongside the error `"Invalid domain name."` when the label is
invalid, else the computed cost.  The storage read in the delegated branch
binds an unused variable and is modelled as effect-free, per the
specification's external-durable-map model of the store. -/
def dns_alloc_cost (st : Storage) (full_domain address : String) :
    AmountResult :=
  let domain_array := split_domain full_domain
  let cost := 0 + compute_cost domain_array.2
  if !(is_valid_domain domain_array.2) then
    ⟨0, some "Invalid domain name."⟩
  else
    ⟨cost, none⟩

/-- Embedding of `dns_alloc_cost` (main.ts lines 87-105, serialized-buffer variant): this
variant DOES forward delegated names to the sub-registry at the stored
address of the top-level label, via the `callCost` oracle. -/
def dns_alloc_cost_fwd (st : Storage)
    (callCost : String → String → AmountResult)
    (full_domain address : String) : AmountResult :=
  let domain_array := split_domain full_domain
  if domain_array.1 != "" then
    match Storage.get st domain_array.2 with
    | none => ⟨0, some "NotFound"⟩
    | some target => callCost target domain_array.1
  else
    let cost := 0 + compute_cost domain_array.2
    if !(is_valid_domain domain_array.2) then
      ⟨0, some "Invalid domain name."⟩
    else
      ⟨cost, none⟩

/-- Embedding of `dns_alloc` (main.ts lines 107-125 and, identically on every path,
266-285): delegated names are forwarded through the `callAlloc` oracle with
the local store unchanged; terminal names are written to the store after
the payment check.  Returns the operation result together with the
resulting store. -/
def dns_alloc (st : Storage) (ctx : Context)
    (callAlloc : String → String → Except String Unit)
    (full_domain address : String) : Except String Unit × Storage :=
  let domain_array := split_domain full_domain
  if domain_array.1 != "" then
    match Storage.get st domain_array.2 with
    | none => (Except.error "NotFound", st)
    | some target => (callAlloc target domain_array.1, st)
  else
    let cost := compute_cost domain_array.2
    if ctx.transferredCoins < cost then
      (Except.error "Not enough coins to pay for the domain name.", st)
    else
      (Except.ok (), Storage.set st domain_array.2 address)

/-- Embedding of `dns_free` (main.ts lines 127-146 and, identically, 287-307): delegated
names are forwarded through `callFree`; on a terminal name the stored owner
is compared against the caller (an absent owner never matches, per the
specification), and on success the record is deleted and half the label's
allocation cost is transferred back to the caller.  Returns the result, the
resulting store and the list of `transferCoins` transfers
(recipient, amount) emitted. -/
def dns_free (st : Storage) (ctx : Context)
    (callFree : String → String → Except String Unit)
    (full_domain : String) :
    Except String Unit × Storage × List (String × Nat) :=
  let domain_array := split_domain full_domain
  if domain_array.1 != "" then
    match Storage.get st domain_array.2 with
    | none => (Except.error "NotFound", st, [])
    | some target => (callFree target domain_array.1, st, [])
  else
    if Storage.get st domain_array.2 ≠ some ctx.caller then
      (Except.error "Only the owner of the domain can free it.", st, [])
    else
      let cost := compute_cost domain_array.2
      (Except.ok (), Storage.del st domain_array.2,
        [(ctx.caller, cost / 2)])

/-- Embedding of `dns_transfer` (main.ts lines 148-166 and, identically, 309-328): same
gating as `dns_free`, but on success the stored owner is overwritten with
the new address and no coins are moved. -/
def dns_transfer (st : Storage) (ctx : Context)
    (callTransfer : String → String → Except String Unit)
    (full_domain new_addr : String) : Except String Unit × Storage :=
  let domain_array := split_domain full_domain
  if domain_array.1 != "" then
    match Storage.get st domain_array.2 with
    | none => (Except.error "NotFound", st)
    | some target => (callTransfer target domain_array.1, st)
  else
    if Storage.get st domain_array.2 ≠ some ctx.caller then
      (Except.error "Only the owner of the domain can free it.", st)
    else
      (Except.ok (), Storage.set st domain_array.2 new_addr)

/-- A character list without a dot has no last-dot split. -/
theorem splitCharsAtLastDot_eq_none (l : List Char) (h : '.' ∉ l) :
    splitCharsAtLastDot l = none := by
  induction l with
  | nil => rfl
  | cons c cs ih =>
    have hc : ¬ c = '.' := fun e => h (e ▸ List.mem_cons_self c cs)
    have hcs : '.' ∉ cs := fun m => h (List.mem_cons_of_mem _ m)
    simp [splitCharsAtLastDot, ih hcs, hc]

/-- Splitting at the last dot of `pre ++ '.' :: post` yields `(pre, post)`
when `post` is dot-free. -/
theorem splitCharsAtLastDot_append (pre post : List Char) (h : '.' ∉ post) :
    splitCharsAtLastDot (pre ++ '.' :: post) = some (pre, post) := by
  induction pre with
  | nil => simp [splitCharsAtLastDot, splitCharsAtLastDot_eq_none post h]
  | cons c cs ih => simp [splitCharsAtLastDot, ih]

/-- A dot-free name is terminal: it splits into an empty remainder and
itself. -/
theorem split_domain_no_dot (d : String) (h : '.' ∉ d.data) :
    split_domain d = ("", d) := by
  simp [split_domain, splitCharsAtLastDot_eq_none d.data h]

/-- A name of the form `sub ++ "." ++ top` with a dot-free `top` splits
into remainder `sub` and label `top`. -/
theorem split_domain_append (sub top : String) (h : '.' ∉ top.data) :
    split_domain (sub ++ "." ++ top) = (sub, top) := by
  have hd : (sub ++ "." ++ top).data = sub.data ++ '.' :: top.data := by
    simp [String.data_append]
  simp [split_domain, hd, splitCharsAtLastDot_append sub.data top.data h]

/-- Reading back a key just written returns the written value. -/
theorem Storage.get_set_self (st : Storage) (key value : String) :
    Storage.get (Storage.set st key value) key = some value := by
  simp [Storage.get, Storage.set, List.find?]

/-- Reading a key just deleted returns nothing. -/
theorem Storage.get_del_self (st : Storage) (key : String) :
    Storage.get (Storage.del st key) key = none := by
  simp [Storage.get, Storage.del, List.find?_eq_none]

/-- C1: for every terminal label and every caller whose identity string
differs from the stored owner (including the case where no record exists
for the label, which never matches any caller), both `dns_free` and
`dns_transfer` fail with the Unauthorized message
"Only the owner of the domain can free it." and leave the stored record
unchanged. -/
theorem dns_free_transfer_unauthorized (st : Storage) (ctx : Context)
    (cf ct : String → String → Except String Unit) (d new_addr : String)
    (hterm : (split_domain d).1 = "")
    (hne : Storage.get st (split_domain d).2 ≠ some ctx.caller) :
    dns_free st ctx cf d =
      (Except.error "Only the owner of the domain can free it.", st, []) ∧
    dns_transfer st ctx ct d new_addr =
      (Except.error "Only the owner of the domain can free it.", st) := by
  constructor
  · simp [dns_free, hterm, hne]
  · simp [dns_transfer, hterm, hne]

/-- Witness for C1: caller "callerB" can neither free nor transfer "ab",
which is owned by "ownerA"; and with an empty store (no record at all) the
same failures occur. -/
theorem dns_free_transfer_unauthorized_witness :
    (dns_free ⟨[("ab", "ownerA")]⟩ ⟨"callerB", 0⟩
        (fun _ _ => Except.error "oracle") "ab" =
      (Except.error "Only the owner of the domain can free it.",
        ⟨[("ab", "ownerA")]⟩, []) ∧
     dns_transfer ⟨[("ab", "ownerA")]⟩ ⟨"callerB", 0⟩
        (fun _ _ => Except.error "oracle") "ab" "newB" =
      (Except.error "Only the owner of the domain can free it.",
        ⟨[("ab", "ownerA")]⟩)) ∧
    (dns_free ⟨[]⟩ ⟨"callerB", 0⟩ (fun _ _ => Except.error "oracle") "ab" =
      (Except.error "Only the owner of the domain can free it.", ⟨[]⟩, []) ∧
     dns_transfer ⟨[]⟩ ⟨"callerB", 0⟩ (fun _ _ => Except.error "oracle")
        "ab" "newB" =
      (Except.error "Only the owner of the domain can free it.", ⟨[]⟩)) :=
  ⟨dns_free_transfer_unauthorized ⟨[("ab", "ownerA")]⟩ ⟨"callerB", 0⟩
      (fun _ _ => Except.error "oracle") (fun _ _ => Except.error "oracle")
      "ab" "newB" (by decide) (by decide),
   dns_free_transfer_unauthorized ⟨[]⟩ ⟨"callerB", 0⟩
      (fun _ _ => Except.error "oracle") (fun _ _ => Except.error "oracle")
      "ab" "newB" (by decide) (by decide)⟩

/-- C2: allocation/resolution round-trip.  For every terminal label and
owner address `A`, if `dns_alloc` succeeds then `dns_resolve` on the
resulting store returns `A` — regardless of the prior store, so in
particular when the label was already claimed by a different owner the
existing record is silently overwritten and reassigned to `A`. -/
theorem dns_alloc_resolve_roundtrip (st : Storage) (ctx : Context)
    (ca : String → String → Except String Unit)
    (cr : String → String → Except String String) (d A : String)
    (hterm : (split_domain d).1 = "")
    (hok : (dns_alloc st ctx ca d A).1 = Except.ok ()) :
    dns_resolve (dns_alloc st ctx ca d A).2 cr d = Except.ok A := by
  by_cases hpay : ctx.transferredCoins < compute_cost (split_domain d).2
  · exact absurd hok (by simp [dns_alloc, hterm, hpay])
  · simp [dns_alloc, hterm, hpay, dns_resolve, Storage.get_set_self]

/-- Witness for C2: "ab" is already owned by "oldOwner"; allocation by a
paying caller reassigns it to "newOwner" and resolution then returns
"newOwner". -/
theorem dns_alloc_resolve_roundtrip_witness :
    dns_resolve
      (dns_alloc ⟨[("ab", "oldOwner")]⟩ ⟨"caller", 10000000000000⟩
        (fun _ _ => Except.error "oracle") "ab" "newOwner").2
      (fun _ _ => Except.error "oracle") "ab" = Except.ok "newOwner" :=
  dns_alloc_resolve_roundtrip ⟨[("ab", "oldOwner")]⟩
    ⟨"caller", 10000000000000⟩ (fun _ _ => Except.error "oracle")
    (fun _ _ => Except.error "oracle") "ab" "newOwner" (by decide) rfl

/-- C3: for every terminal name, a payment strictly below the computed cost
makes `dns_alloc` fail with "Not enough coins to pay for the domain name."
and no state change, while a payment at or above the cost makes it succeed
(writing the record). -/
theorem dns_alloc_payment (st : Storage) (ctx : Context)
    (ca : String → String → Except String Unit) (d A : String)
    (hterm : (split_domain d).1 = "") :
    (ctx.transferredCoins < compute_cost (split_domain d).2 →
      dns_alloc st ctx ca d A =
        (Except.error "Not enough coins to pay for the domain name.", st)) ∧
    (compute_cost (split_domain d).2 ≤ ctx.transferredCoins →
      dns_alloc st ctx ca d A =
        (Except.ok (), Storage.set st (split_domain d).2 A)) := by
  constructor
  · intro h; simp [dns_alloc, hterm, h]
  · intro h; simp [dns_alloc, hterm, Nat.not_lt.mpr h]

/-- Witness for C3: allocating "ab" (cost 10^13) with payment 0 fails and
leaves the store unchanged; with payment 10^13 it succeeds and stores the
record. -/
theorem dns_alloc_payment_witness :
    dns_alloc ⟨[]⟩ ⟨"caller", 0⟩ (fun _ _ => Except.error "oracle")
        "ab" "ownerA" =
      (Except.error "Not enough coins to pay for the domain name.", ⟨[]⟩) ∧
    dns_alloc ⟨[]⟩ ⟨"caller", 10000000000000⟩
        (fun _ _ => Except.error "oracle") "ab" "ownerA" =
      (Except.ok (), Storage.set ⟨[]⟩ "ab" "ownerA") :=
  ⟨(dns_alloc_payment ⟨[]⟩ ⟨"caller", 0⟩ (fun _ _ => Except.error "oracle")
      "ab" "ownerA" (by decide)).1 (by decide),
   (dns_alloc_payment ⟨[]⟩ ⟨"caller", 10000000000000⟩
      (fun _ _ => Except.error "oracle") "ab" "ownerA" (by decide)).2
      (by decide)⟩

/-- C4: for every terminal label whose stored owner equals the caller,
`dns_free` deletes the record (the label no longer resolves in the
resulting store) and transfers back to the caller exactly half of the
label's allocation cost rounded toward zero; for "ab" (cost 10,000 units)
the refund is 5,000 units. -/
theorem dns_free_owner_refund (st : Storage) (ctx : Context)
    (cf : String → String → Except String Unit) (d : String)
    (hterm : (split_domain d).1 = "")
    (hown : Storage.get st (split_domain d).2 = some ctx.caller) :
    dns_free st ctx cf d =
      (Except.ok (), Storage.del st (split_domain d).2,
        [(ctx.caller, compute_cost (split_domain d).2 / 2)]) ∧
    Storage.get (dns_free st ctx cf d).2.1 (split_domain d).2 = none ∧
    compute_cost "ab" / 2 = 5000 * ONE_UNIT := by
  have hmain : dns_free st ctx cf d =
      (Except.ok (), Storage.del st (split_domain d).2,
        [(ctx.caller, compute_cost (split_domain d).2 / 2)]) := by
    simp [dns_free, hterm, hown]
  exact ⟨hmain, by rw [hmain]; exact Storage.get_del_self st _, by decide⟩

/-- Witness for C4: the owner "me" frees "ab" and receives
5,000,000,000,000 = 5,000 × ONE_UNIT back; the record is gone. -/
theorem dns_free_owner_refund_witness :
    dns_free ⟨[("ab", "me")]⟩ ⟨"me", 0⟩ (fun _ _ => Except.error "oracle")
        "ab" =
      (Except.ok (), Storage.del ⟨[("ab", "me")]⟩ "ab",
        [("me", 5000000000000)]) ∧
    Storage.get (dns_free ⟨[("ab", "me")]⟩ ⟨"me", 0⟩
        (fun _ _ => Except.error "oracle") "ab").2.1 "ab" = none ∧
    compute_cost "ab" / 2 = 5000 * ONE_UNIT :=
  dns_free_owner_refund ⟨[("ab", "me")]⟩ ⟨"me", 0⟩
    (fun _ _ => Except.error "oracle") "ab" (by decide) (by decide)

/-- C5: the computed cost is 10,000 units for length 2, 1,000 units for
length 3, 100 units for lengths 4 through 10, and 1 unit for length at
least 11, where one unit is ONE_UNIT = 1,000,000,000. -/
theorem compute_cost_tiers (d : String) :
    (d.length = 2 → compute_cost d = 10000 * ONE_UNIT) ∧
    (d.length = 3 → compute_cost d = 1000 * ONE_UNIT) ∧
    (4 ≤ d.length ∧ d.length ≤ 10 → compute_cost d = 100 * ONE_UNIT) ∧
    (11 ≤ d.length → compute_cost d = 1 * ONE_UNIT) ∧
    ONE_UNIT = 1000000000 := by
  refine ⟨?_, ?_, ?_, ?_, rfl⟩ <;> intro h <;> unfold compute_cost <;>
    split_ifs <;> omega

/-- Witness for C5: one concrete label in each tier. -/
theorem compute_cost_tiers_witness :
    compute_cost "ab" = 10000 * ONE_UNIT ∧
    compute_cost "abc" = 1000 * ONE_UNIT ∧
    compute_cost "abcd" = 100 * ONE_UNIT ∧
    compute_cost "abcdefghijk" = 1 * ONE_UNIT :=
  ⟨(compute_cost_tiers "ab").1 (by decide),
   (compute_cost_tiers "abc").2.1 (by decide),
   (compute_cost_tiers "abcd").2.2.1 (by decide),
   (compute_cost_tiers "abcdefghijk").2.2.2.1 (by decide)⟩

/-- C6: `dns_resolve` (serialized-buffer variant, the one whose delegated
branch issues the forwarded call) returns the stored owner for a terminal
name, fails with NotFound when the record is absent, and on a delegated
name `sub ++ "." ++ top` forwards the remainder `sub` to the address `R`
stored for `top`, returning that answer unchanged; when `top` is unclaimed
it fails with NotFound for every forwarding oracle, i.e. before any
delegation attempt. -/
theorem dns_resolve_spec (st : Storage)
    (cr : String → String → Except String String) (d sub top R : String)
    (hterm : (split_domain d).1 = "") (hsub : sub ≠ "")
    (htop : '.' ∉ top.data) :
    (Storage.get st (split_domain d).2 = none →
      dns_resolve st cr d = Except.error "NotFound") ∧
    (∀ owner, Storage.get st (split_domain d).2 = some owner →
      dns_resolve st cr d = Except.ok owner) ∧
    (Storage.get st top = some R →
      dns_resolve st cr (sub ++ "." ++ top) = cr R sub) ∧
    (Storage.get st top = none →
      dns_resolve st cr (sub ++ "." ++ top) = Except.error "NotFound") := by
  have hsplit := split_domain_append sub top htop
  refine ⟨?_, ?_, ?_, ?_⟩
  · intro h; simp [dns_resolve, hterm, h]
  · intro owner h; simp [dns_resolve, hterm, h]
  · intro h; simp [dns_resolve, hsplit, hsub, h]
  · intro h; simp [dns_resolve, hsplit, hsub, h]

/-- Witness for C6: with "ab" owned by "me" and "top" owned by "R1",
resolution of "ab" returns "me", resolution of "sub.top" returns the
oracle's answer for target "R1" and remainder "sub" unchanged, and on the
empty store both "sub.top" and "ab" fail with NotFound. -/
theorem dns_resolve_spec_witness :
    dns_resolve ⟨[("top", "R1"), ("ab", "me")]⟩
      (fun a r => Except.ok (a ++ "/" ++ r)) "ab" = Except.ok "me" ∧
    dns_resolve ⟨[("top", "R1"), ("ab", "me")]⟩
      (fun a r => Except.ok (a ++ "/" ++ r)) "sub.top" =
      Except.ok "R1/sub" ∧
    dns_resolve ⟨[]⟩ (fun a r => Except.ok (a ++ "/" ++ r)) "sub.top" =
      Except.error "NotFound" ∧
    dns_resolve ⟨[]⟩ (fun a r => Except.ok (a ++ "/" ++ r)) "ab" =
      Except.error "NotFound" := by
  have h1 := dns_resolve_spec ⟨[("top", "R1"), ("ab", "me")]⟩
    (fun a r => Except.ok (a ++ "/" ++ r)) "ab" "sub" "top" "R1"
    (by decide) (by decide) (by decide)
  have h2 := dns_resolve_spec ⟨[]⟩ (fun a r => Except.ok (a ++ "/" ++ r))
    "ab" "sub" "top" "R1" (by decide) (by decide) (by decide)
  exact ⟨h1.2.1 "me" rfl, (h1.2.2.1 rfl).trans rfl, h2.2.2.2 rfl,
    h2.1 rfl⟩

/-- C7: `dns_alloc_cost` (typed-`Result` variant, whose delegated branch's
forwarded call is commented out) never forwards: its result does not
depend on the store or on the address argument, and it is computed from
the local top-level label — failing with amount 0 alongside the error
"Invalid domain name." when that label is invalid, and returning the
computed cost otherwise. -/
theorem dns_alloc_cost_local (st st2 : Storage) (d addr addr2 : String) :
    dns_alloc_cost st d addr = dns_alloc_cost st2 d addr2 ∧
    (is_valid_domain (split_domain d).2 = false →
      dns_alloc_cost st d addr = ⟨0, some "Invalid domain name."⟩) ∧
    (is_valid_domain (split_domain d).2 = true →
      dns_alloc_cost st d addr = ⟨compute_cost (split_domain d).2, none⟩) := by
  refine ⟨rfl, ?_, ?_⟩ <;> intro h <;> simp [dns_alloc_cost, h]

/-- Witness for C7: the quote for the delegated name "sub.top" ignores the
store (empty store versus a store with "top" registered) and equals the
local cost of "top"; the delegated name "x.AB" with invalid label "AB"
yields amount 0 with the invalid-domain error. -/
theorem dns_alloc_cost_local_witness :
    dns_alloc_cost ⟨[]⟩ "sub.top" "addrA" =
      dns_alloc_cost ⟨[("top", "R1")]⟩ "sub.top" "addrB" ∧
    dns_alloc_cost ⟨[]⟩ "x.AB" "addrA" = ⟨0, some "Invalid domain name."⟩ ∧
    dns_alloc_cost ⟨[]⟩ "sub.top" "addrA" = ⟨compute_cost "top", none⟩ :=
  ⟨(dns_alloc_cost_local ⟨[]⟩ ⟨[("top", "R1")]⟩ "sub.top" "addrA" "addrB").1,
   (dns_alloc_cost_local ⟨[]⟩ ⟨[]⟩ "x.AB" "addrA" "addrA").2.1 (by decide),
   (dns_alloc_cost_local ⟨[]⟩ ⟨[]⟩ "sub.top" "addrA" "addrA").2.2
     (by decide)⟩

/-- One character of a label is accepted exactly when it is an ASCII
lowercase letter, a digit, or a hyphen. -/
theorem is_valid_char_iff (c : Char) :
    is_valid_char c = true ↔
      ('a' ≤ c ∧ c ≤ 'z') ∨ ('0' ≤ c ∧ c ≤ '9') ∨ c = '-' := by
  unfold is_valid_char
  constructor
  · intro h
    simp only [Bool.or_eq_true, Bool.and_eq_true, decide_eq_true_eq,
      beq_iff_eq] at h
    rcases h with (⟨h1, h2⟩ | ⟨h1, h2⟩) | h
    · exact Or.inr (Or.inl ⟨h1, h2⟩)
    · exact Or.inl ⟨h1, h2⟩
    · refine Or.inr (Or.inr ?_)
      apply Char.eq_of_val_eq
      apply UInt32.eq_of_toBitVec_eq
      apply BitVec.eq_of_toNat_eq
      exact h
  · intro h
    simp only [Bool.or_eq_true, Bool.and_eq_true, decide_eq_true_eq,
      beq_iff_eq]
    rcases h with ⟨h1, h2⟩ | ⟨h1, h2⟩ | rfl
    · exact Or.inl (Or.inr ⟨h1, h2⟩)
    · exact Or.inl (Or.inl ⟨h1, h2⟩)
    · exact Or.inr rfl

/-- C8: `is_valid_domain` returns true iff the label has length at least 2
and every character is an ASCII lowercase letter, a digit, or a hyphen; in
particular "ab" is valid while "a", "AB" and "a.b" are invalid. -/
theorem is_valid_domain_iff (d : String) :
    (is_valid_domain d = true ↔
      2 ≤ d.length ∧ ∀ c ∈ d.data,
        ('a' ≤ c ∧ c ≤ 'z') ∨ ('0' ≤ c ∧ c ≤ '9') ∨ c = '-') ∧
    is_valid_domain "ab" = true ∧ is_valid_domain "a" = false ∧
    is_valid_domain "AB" = false ∧ is_valid_domain "a.b" = false := by
  refine ⟨?_, by decide, by decide, by decide, by decide⟩
  unfold is_valid_domain
  by_cases hl : d.length < 2
  · simp [hl]
  · simp [hl, List.all_eq_true, is_valid_char_iff]
    intro h
    omega

/-- Witness for C8: the characterization applied at "ab". -/
theorem is_valid_domain_iff_witness : is_valid_domain "ab" = true :=
  (is_valid_domain_iff "ab").1.mpr (by decide)

/-- Counterexample to C9 as stated: the cost function is not non-increasing
over ALL labels, because lengths 0 and 1 fall into the minimum tier; "a"
(length 1) costs 1 unit while the longer "ab" (length 2) costs 10,000
units. -/
theorem compute_cost_not_antitone_cex :
    "a".length ≤ "ab".length ∧ compute_cost "a" < compute_cost "ab" := by
  decide

/-- C9 (amended): the cost function is total, and among labels of length at
least 2 (in particular all valid labels) it is non-increasing in label
length: a longer label never costs more than a shorter one. -/
theorem compute_cost_antitone (s t : String) (h2 : 2 ≤ s.length)
    (h : s.length ≤ t.length) : compute_cost t ≤ compute_cost s := by
  unfold compute_cost
  split_ifs <;> omega

/-- Witness for C9 (amended): "abc" costs no more than "ab". -/
theorem compute_cost_antitone_witness :
    compute_cost "abc" ≤ compute_cost "ab" :=
  compute_cost_antitone "ab" "abc" (by decide) (by decide)

/-- C10: `dns_alloc` never applies the label-validity predicate: on a
terminal name with an invalid label it still succeeds and stores the
record whenever the payment is at least the computed cost, and on the
terminal path its result is either success or the insufficient-payment
error — no other failure exists there. -/
theorem dns_alloc_no_validity_check (st : Storage) (ctx : Context)
    (ca : String → String → Except String Unit) (d A : String)
    (hterm : (split_domain d).1 = "") :
    (is_valid_domain (split_domain d).2 = false →
      compute_cost (split_domain d).2 ≤ ctx.transferredCoins →
      dns_alloc st ctx ca d A =
        (Except.ok (), Storage.set st (split_domain d).2 A)) ∧
    ((dns_alloc st ctx ca d A).1 = Except.ok () ∨
     (dns_alloc st ctx ca d A).1 =
       Except.error "Not enough coins to pay for the domain name.") := by
  constructor
  · intro _ hpay
    simp [dns_alloc, hterm, Nat.not_lt.mpr hpay]
  · by_cases hpay : ctx.transferredCoins < compute_cost (split_domain d).2
    · right; simp [dns_alloc, hterm, hpay]
    · left; simp [dns_alloc, hterm, hpay]

/-- Witness for C10: "AB" fails the validity predicate, yet allocation with
payment 10^13 (its cost) succeeds and stores the record. -/
theorem dns_alloc_no_validity_check_witness :
    is_valid_domain "AB" = false ∧
    dns_alloc ⟨[]⟩ ⟨"caller", 10000000000000⟩
        (fun _ _ => Except.error "oracle") "AB" "ownerA" =
      (Except.ok (), Storage.set ⟨[]⟩ "AB" "ownerA") :=
  ⟨by decide,
   (dns_alloc_no_validity_check ⟨[]⟩ ⟨"caller", 10000000000000⟩
      (fun _ _ => Except.error "oracle") "AB" "ownerA" (by decide)).1
      (by decide) (by decide)⟩
